import Mathlib

/-
Verification development for the alerting and credential-lifecycle
subsystem of the zwfm-encoder repository (package `notify`).

The Go source is shallowly embedded: pure functions become Lean
functions, stateful methods become explicit state-passing functions,
and the goroutine/mutex interleavings relevant to the Secret Expiry
Checker's `Stop()` are modelled as a small-step transition system over
an explicit two-thread state.  Machine integers are modelled as
`Int`/`Nat`; Go's `int(float64)` truncation toward zero is `Int.tdiv`
(exact for the nanosecond magnitudes at issue).
-/

/-! ### Definitions -/

/-! ## Episode Notification Dispatcher (`SilenceNotifier`, notifier.go)

State fields of `SilenceNotifier`: the three per-episode sent flags and
the cached Graph client (modelled opaquely as `Option Nat`).  The
config snapshot taken by `handleSilenceStart` only feeds the three
channel-enabling predicates `HasWebhook`, `HasGraph`, `HasLogPath`. -/

/-- The part of a `config.Snapshot` consumed by the dispatcher: the
three channel-enabling predicates. -/
structure Snapshot where
  hasWebhook : Bool
  hasGraph : Bool
  hasLogPath : Bool
deriving DecidableEq, Repr

/-- Mutable state of `SilenceNotifier`: three sent flags plus the
cached Graph client (opaque). -/
structure SilenceNotifierState where
  webhookSent : Bool
  emailSent : Bool
  logSent : Bool
  graphClient : Option Nat
deriving DecidableEq, Repr

/-- `NewSilenceNotifier`: zero-valued state (Go zero values). -/
def NewSilenceNotifier : SilenceNotifierState :=
  { webhookSent := false, emailSent := false, logSent := false, graphClient := none }

/-- The three notification channels. -/
inductive Channel
  | webhook
  | email
  | log
deriving DecidableEq, Repr

/-- An outbound notification dispatched (as a detached task) by the
dispatcher. -/
inductive Notification
  | start (c : Channel)
  | recovery (c : Channel)
deriving DecidableEq, Repr

instance : BEq Notification := instBEqOfDecidableEq

/-- `SilenceNotifier.trySend`: under the lock, compute
`shouldSend = !*sent && condition`; if so set the flag; the send is
dispatched exactly when `shouldSend`.  Returns (new flag, dispatched?). -/
def trySend (sent condition : Bool) : Bool × Bool :=
  let shouldSend := !sent && condition
  (if shouldSend then true else sent, shouldSend)

/-- `SilenceNotifier.handleSilenceStart`: snapshot the config and run
`trySend` for the webhook, email and log channels in order.  Returns
the new state and the list of start notifications dispatched. -/
def handleSilenceStart (cfg : Snapshot) (s : SilenceNotifierState) :
    SilenceNotifierState × List Notification :=
  let w := trySend s.webhookSent cfg.hasWebhook
  let e := trySend s.emailSent cfg.hasGraph
  let l := trySend s.logSent cfg.hasLogPath
  ({ s with webhookSent := w.1, emailSent := e.1, logSent := l.1 },
    (if w.2 then [Notification.start Channel.webhook] else []) ++
    (if e.2 then [Notification.start Channel.email] else []) ++
    (if l.2 then [Notification.start Channel.log] else []))

/-- `SilenceNotifier.handleSilenceEnd`: under the lock, read the three
sent flags and clear them; afterwards dispatch a recovery notification
for exactly the channels whose flag was set. -/
def handleSilenceEnd (s : SilenceNotifierState) :
    SilenceNotifierState × List Notification :=
  let shouldSendWebhookRecovery := s.webhookSent
  let shouldSendEmailRecovery := s.emailSent
  let shouldSendLogRecovery := s.logSent
  ({ s with webhookSent := false, emailSent := false, logSent := false },
    (if shouldSendWebhookRecovery then [Notification.recovery Channel.webhook] else []) ++
    (if shouldSendEmailRecovery then [Notification.recovery Channel.email] else []) ++
    (if shouldSendLogRecovery then [Notification.recovery Channel.log] else []))

/-- `audio.SilenceEvent` as consumed by `HandleEvent`. -/
structure SilenceEvent where
  justEntered : Bool
  justRecovered : Bool
  durationMs : Int
  totalDurationMs : Int

/-- `SilenceNotifier.HandleEvent`: if `JustEntered`, run
`handleSilenceStart`; if `JustRecovered`, run `handleSilenceEnd`. -/
def HandleEvent (cfg : Snapshot) (ev : SilenceEvent) (s : SilenceNotifierState) :
    SilenceNotifierState × List Notification :=
  let p := if ev.justEntered then handleSilenceStart cfg s else (s, [])
  let q := if ev.justRecovered then handleSilenceEnd p.1 else (p.1, [])
  (q.1, p.2 ++ q.2)

/-- `SilenceNotifier.Reset`: clear the three sent flags. -/
def Reset (s : SilenceNotifierState) : SilenceNotifierState :=
  { s with webhookSent := false, emailSent := false, logSent := false }

/-- `SilenceNotifier.InvalidateGraphClient`: clear the cached client. -/
def InvalidateGraphClient (s : SilenceNotifierState) : SilenceNotifierState :=
  { s with graphClient := none }

/-- Process a sequence of `enteredSilence=true` events (one unresolved
episode), each with the config snapshot in force at that moment. -/
def processEntered : List Snapshot → SilenceNotifierState →
    SilenceNotifierState × List Notification
  | [], s => (s, [])
  | cfg :: cfgs, s =>
    let p := handleSilenceStart cfg s
    let q := processEntered cfgs p.1
    (q.1, p.2 ++ q.2)

/-- Number of start notifications dispatched for channel `c`. -/
def countStart (c : Channel) (outs : List Notification) : Nat :=
  outs.count (Notification.start c)

/-! ## Mail Delivery Client (`GraphClient`, graph.go)

`sendWithRetry` is embedded as a function of an oracle mapping each
attempt index to the observed result of that HTTP round trip (transport
error, or a status code with response body).  Waits are in seconds
(`initialRetryWait = 1s`, `maxRetryWait = 30s`). -/

/-- Retry settings from the source constants. -/
def maxRetries : Nat := 3

/-- `initialRetryWait = 1 * time.Second`, modelled in seconds. -/
def initialRetryWait : Nat := 1

/-- `maxRetryWait = 30 * time.Second`, modelled in seconds. -/
def maxRetryWait : Nat := 30

/-- Observable result of one HTTP attempt: a transport error from
`httpClient.Do`, or a response with status code and body. -/
inductive AttemptResult
  | netErr (msg : String)
  | status (code : Nat) (body : String)
deriving DecidableEq, Repr

/-- A transient error as recorded in `lastErr`. -/
inductive TransientErr
  | sendRequest (msg : String)
  | apiStatus (code : Nat) (body : String)
deriving DecidableEq, Repr

/-- Classification of one attempt by the `switch resp.StatusCode`
(202/200/204 success; 429/503 transient; default terminal) plus the
transport-error branch of `httpClient.Do`. -/
inductive Classified
  | success
  | transient (e : TransientErr)
  | terminal (code : Nat) (body : String)
deriving DecidableEq, Repr

/-- The attempt classification performed inside the retry loop body. -/
def classify : AttemptResult → Classified
  | .netErr m => .transient (.sendRequest m)
  | .status c b =>
    if c = 202 ∨ c = 200 ∨ c = 204 then .success
    else if c = 429 ∨ c = 503 then .transient (.apiStatus c b)
    else .terminal c b

/-- `retryWait *= 2; if retryWait > maxRetryWait { retryWait = maxRetryWait }`. -/
def nextRetryWait (w : Nat) : Nat :=
  if w * 2 > maxRetryWait then maxRetryWait else w * 2

/-- Final observable behaviour of one `SendMail` delivery. -/
inductive SendOutcome
  | success
  | terminal (code : Nat) (body : String)
  | exhausted (last : Option TransientErr)
deriving DecidableEq, Repr

/-- Trace of one `sendWithRetry` run: outcome, number of attempts
made, and the sequence of backoff sleeps (seconds) in order. -/
structure SendTrace where
  outcome : SendOutcome
  attempts : Nat
  sleeps : List Nat
deriving DecidableEq, Repr

/-- The `for attempt := 0; attempt <= maxRetries; attempt++` loop of
`GraphClient.sendWithRetry`, with `fuel` the number of loop iterations
still allowed (`maxRetries + 1 - attempt`). -/
def sendLoop (oracle : Nat → AttemptResult) :
    Nat → Nat → Nat → Option TransientErr → List Nat → SendTrace
  | attempt, 0, _, lastErr, sleeps =>
    { outcome := .exhausted lastErr, attempts := attempt, sleeps := sleeps }
  | attempt, fuel + 1, retryWait, _lastErr, sleeps =>
    let sleeps' := if attempt > 0 then sleeps ++ [retryWait] else sleeps
    let retryWait' := if attempt > 0 then nextRetryWait retryWait else retryWait
    match classify (oracle attempt) with
    | .success => { outcome := .success, attempts := attempt + 1, sleeps := sleeps' }
    | .terminal c b => { outcome := .terminal c b, attempts := attempt + 1, sleeps := sleeps' }
    | .transient e => sendLoop oracle (attempt + 1) fuel retryWait' (some e) sleeps'

/-- `GraphClient.sendWithRetry` as a whole. -/
def sendWithRetry (oracle : Nat → AttemptResult) : SendTrace :=
  sendLoop oracle 0 (maxRetries + 1) initialRetryWait none []

/-- A result the loop treats as transient: transport error or 429/503. -/
def IsTransientResult : AttemptResult → Prop
  | .netErr _ => True
  | .status c _ => c = 429 ∨ c = 503

/-- The transient error recorded for a transient attempt result. -/
def toTransient : AttemptResult → TransientErr
  | .netErr m => .sendRequest m
  | .status c b => .apiStatus c b

/-! ## Mail channel configuration (`GraphConfig`) -/

/-- `types.GraphConfig`: the five mail-channel fields. -/
structure GraphConfig where
  tenantID : String
  clientID : String
  clientSecret : String
  fromAddress : String
  recipients : String
deriving DecidableEq, Repr

/-- `IsConfigured`: all five fields non-empty. -/
def IsConfigured (cfg : GraphConfig) : Bool :=
  cfg.tenantID != "" && cfg.clientID != "" && cfg.clientSecret != "" &&
    cfg.fromAddress != "" && cfg.recipients != ""

/-- `ValidateConfig`: returns the first missing-field error, or `none`. -/
def ValidateConfig (cfg : GraphConfig) : Option String :=
  if cfg.tenantID = "" then some "tenant ID is required"
  else if cfg.clientID = "" then some "client ID is required"
  else if cfg.clientSecret = "" then some "client secret is required"
  else if cfg.fromAddress = "" then some "from address (shared mailbox) is required"
  else if cfg.recipients = "" then some "recipients are required"
  else none

/-- Go `strings.Split(s, ",")` over the character list. -/
def splitOnComma : List Char → List (List Char)
  | [] => [[]]
  | c :: cs =>
    let rest := splitOnComma cs
    if c = ',' then [] :: rest
    else (c :: rest.headD []) :: rest.tail

/-- Go `strings.TrimSpace` (modelled over the ASCII whitespace subset,
which covers the separators relevant to recipient lists). -/
def trimSpace (s : List Char) : List Char :=
  ((s.dropWhile Char.isWhitespace).reverse.dropWhile Char.isWhitespace).reverse

/-- `ParseRecipients`: split on commas, trim each part, keep the
non-empty parts. -/
def ParseRecipients (recipients : String) : List String :=
  ((splitOnComma recipients.data).map (fun r => String.mk (trimSpace r))).filter
    (· != "")

/-! ## Secret Expiry Checker: expiry arithmetic and credential scan

Instants are nanoseconds since the Go zero time (`time.Time{}`), so
the integer `0` is exactly the zero `time.Time` that `IsZero` tests
(calendar date 0001-01-01T00:00:00Z).  `time.Until(earliest).Hours() /
24` truncated by Go's `int(...)` conversion is `Int.tdiv` of the
nanosecond difference by a day's nanoseconds; this is exact whenever
the float64 `Hours()` value is (as it is for all durations under
about 104 days, and the claim's example magnitudes). -/

/-- Nanoseconds in 24h. -/
def nsPerDay : Int := 24 * 60 * 60 * 1000000000

/-- `expiryWarningDays = 30`. -/
def expiryWarningDays : Int := 30

/-- `daysLeft := int(time.Until(earliest).Hours() / 24); if daysLeft <
0 { daysLeft = 0 }` — truncation toward zero, clamped at 0. -/
def computeDaysLeft (untilNs : Int) : Int :=
  let daysLeft := Int.tdiv untilNs nsPerDay
  if daysLeft < 0 then 0 else daysLeft

/-- `types.SecretExpiryInfo` (the timestamp kept as an instant). -/
structure SecretExpiryInfo where
  expiresAt : Option Int
  expiresSoon : Bool
  daysLeft : Int
  error : Option String
deriving DecidableEq, Repr

/-- The credential scan of `fetchExpiryInfo`: each record is the parse
outcome of its `endDateTime` (`none` for an empty or unparseable
string, `some t` for an end date `t` nanoseconds after the zero time;
`some 0` is an end date of exactly 0001-01-01T00:00:00Z, the zero
`time.Time`).  `var earliest time.Time` starts at zero; a parsed
expiry replaces it when `earliest.IsZero() || expiry.Before(earliest)`. -/
def earliestStep (earliest : Int) (cred : Option Int) : Int :=
  match cred with
  | none => earliest
  | some expiry => if earliest = 0 ∨ expiry < earliest then expiry else earliest

/-- The loop `for _, cred := range appResp.PasswordCredentials`,
starting from `var earliest time.Time` (the zero value). -/
def findEarliest (creds : List (Option Int)) : Int :=
  creds.foldl earliestStep 0

/-- The tail of `fetchExpiryInfo` after the HTTP response is decoded:
scan for the earliest credential end date; if none was kept, report
the "no password credentials found" condition; otherwise compute
`daysLeft` and `expiresSoon` from `time.Until(earliest)` where
`nowNs` is the current instant. -/
def fetchExpiryInfoResult (nowNs : Int) (creds : List (Option Int)) :
    SecretExpiryInfo :=
  let earliest := findEarliest creds
  if earliest = 0 then
    { expiresAt := none, expiresSoon := false, daysLeft := 0,
      error := some "no password credentials found" }
  else
    let daysLeft := computeDaysLeft (earliest - nowNs)
    { expiresAt := some earliest, expiresSoon := decide (daysLeft ≤ expiryWarningDays),
      daysLeft := daysLeft, error := none }

/-- The end dates that parsed (spec side: what "all parseable end-dates"
denotes). -/
def parsedDates : List (Option Int) → List Int
  | [] => []
  | none :: cs => parsedDates cs
  | some t :: cs => t :: parsedDates cs

/-- Spec side: the minimum of the parseable end dates, `none` when
there are none. -/
def minOfParsed : List (Option Int) → Option Int
  | [] => none
  | none :: cs => minOfParsed cs
  | some t :: cs =>
    match minOfParsed cs with
    | none => some t
    | some m => some (min t m)

/-! ## Secret Expiry Checker lifecycle (`Start`/`Stop`, part with the
per-run completion channel)

`Start` takes the lock, returns if already running, otherwise
recreates `stopCh`/`doneCh`, flips `running`, performs one synchronous
check, and launches the periodic goroutine against the fresh `stopCh`.
`Stop` takes the lock, returns if not running, otherwise closes
`stopCh` (which makes the periodic goroutine exit) and clears
`running`.  The lock makes each transition atomic, so the lifecycle is
modelled as sequential state transitions; `checksRun` counts the
immediate synchronous checks. -/

/-- Observable lifecycle state of a `SecretExpiryChecker`. -/
structure CheckerLifecycle where
  running : Bool
  stopChClosed : Bool
  bgActive : Bool
  checksRun : Nat
deriving DecidableEq, Repr

/-- `NewSecretExpiryChecker`: not running, no background activity. -/
def NewSecretExpiryChecker : CheckerLifecycle :=
  { running := false, stopChClosed := false, bgActive := false, checksRun := 0 }

/-- `SecretExpiryChecker.Start`. -/
def checkerStart (s : CheckerLifecycle) : CheckerLifecycle :=
  if s.running then s
  else
    { running := true, stopChClosed := false, bgActive := true,
      checksRun := s.checksRun + 1 }

/-- `SecretExpiryChecker.Stop` (lifecycle view). -/
def checkerStop (s : CheckerLifecycle) : CheckerLifecycle :=
  if !s.running then s
  else { s with running := false, stopChClosed := true, bgActive := false }

/-! ## Secret Expiry Checker: `Stop` versus an in-flight `check`

The `Stop`/`check` interaction of the version with the `doneCh`
completion channel, as a two-thread interleaving machine.  The checker
thread runs the body of `check()` on the configured path (`fetchExpiryInfo`
succeeds); the stopper thread runs `Stop()`.  Program counters:

checker (`check`): 0 acquire mu; 1 `checking = true` (capture cfg,
doneCh); 2 release; 3 `fetchExpiryInfo` (no shared state); 4 acquire;
5 write `cachedInfo` and `lastCheck`; 6 release; 7 acquire (deferred);
8 `checking = false`; 9 release; 10 non-blocking send on `doneCh`
(rendezvous only if the stopper is parked at its receive); 11 done.

stopper (`Stop`): 0 acquire mu; 1 test `running`; 2 release and return
(not-running path); 3 `close(stopCh); running = false; checking`
snapshot; 4 release; 5 test the snapshot; 6 blocked receiving from
`doneCh`; 7 returned.

`writeAfterStopReturn` latches when the checker performs its cache
write (pc 5) at a moment the stopper has already returned. -/

/-- Shared state of the two-thread `Stop`/`check` machine. -/
structure RaceState where
  lockHeld : Bool
  running : Bool
  checking : Bool
  stopChClosed : Bool
  cacheWrites : Nat
  writeAfterStopReturn : Bool
  checkerPC : Nat
  stopperPC : Nat
  stopperSawChecking : Bool
  stopReturned : Bool
deriving DecidableEq, Repr

/-- One step of the checker thread (`check()`), if enabled. -/
def checkStep (s : RaceState) : Option RaceState :=
  match s.checkerPC with
  | 0 => if s.lockHeld then none else some { s with lockHeld := true, checkerPC := 1 }
  | 1 => some { s with checking := true, checkerPC := 2 }
  | 2 => some { s with lockHeld := false, checkerPC := 3 }
  | 3 => some { s with checkerPC := 4 }
  | 4 => if s.lockHeld then none else some { s with lockHeld := true, checkerPC := 5 }
  | 5 =>
    some { s with
            cacheWrites := s.cacheWrites + 1,
            writeAfterStopReturn := s.writeAfterStopReturn || s.stopReturned,
            checkerPC := 6 }
  | 6 => some { s with lockHeld := false, checkerPC := 7 }
  | 7 => if s.lockHeld then none else some { s with lockHeld := true, checkerPC := 8 }
  | 8 => some { s with checking := false, checkerPC := 9 }
  | 9 => some { s with lockHeld := false, checkerPC := 10 }
  | 10 =>
    if s.stopperPC = 6 then
      some { s with checkerPC := 11, stopperPC := 7, stopReturned := true }
    else some { s with checkerPC := 11 }
  | _ => none

/-- One step of the stopper thread (`Stop()`), if enabled. -/
def stopStep (s : RaceState) : Option RaceState :=
  match s.stopperPC with
  | 0 => if s.lockHeld then none else some { s with lockHeld := true, stopperPC := 1 }
  | 1 => if s.running then some { s with stopperPC := 3 } else some { s with stopperPC := 2 }
  | 2 => some { s with lockHeld := false, stopperPC := 7, stopReturned := true }
  | 3 =>
    some { s with
            stopChClosed := true,
            running := false,
            stopperSawChecking := s.checking,
            stopperPC := 4 }
  | 4 => some { s with lockHeld := false, stopperPC := 5 }
  | 5 =>
    if s.stopperSawChecking then some { s with stopperPC := 6 }
    else some { s with stopperPC := 7, stopReturned := true }
  | _ => none

/-- Run a schedule (`true` = checker moves, `false` = stopper moves);
a disabled step leaves the state unchanged. -/
def raceRun : List Bool → RaceState → RaceState
  | [], s => s
  | t :: ts, s =>
    match (if t then checkStep s else stopStep s) with
    | none => raceRun ts s
    | some s' => raceRun ts s'

/-- Initial state: the checker is running, a periodic `check()` has
just been invoked (checker at its first instruction, `checking` not
yet set), and `Stop()` is invoked concurrently. -/
def raceInit : RaceState :=
  { lockHeld := false, running := true, checking := false,
    stopChClosed := false, cacheWrites := 0, writeAfterStopReturn := false,
    checkerPC := 0, stopperPC := 0, stopperSawChecking := false,
    stopReturned := false }

/-! ### Lemmas and claim theorems -/

lemma countStart_append (c : Channel) (xs ys : List Notification) :
    countStart c (xs ++ ys) = countStart c xs + countStart c ys := by
  simp [countStart, List.count_append]

lemma countStart_webhook_processEntered (cfgs : List Snapshot) :
    ∀ s : SilenceNotifierState,
      countStart Channel.webhook (processEntered cfgs s).2 =
        if s.webhookSent then 0 else if cfgs.any (·.hasWebhook) then 1 else 0 := by
  induction cfgs with
  | nil => intro s; simp [processEntered, countStart]
  | cons cfg cfgs ih =>
    rintro ⟨ws, es, ls, g⟩
    simp only [processEntered, countStart_append, ih]
    cases ws <;> cases hw : cfg.hasWebhook <;>
      simp [handleSilenceStart, trySend, countStart, hw, List.count_cons] <;>
      split_ifs <;> simp_all

lemma countStart_email_processEntered (cfgs : List Snapshot) :
    ∀ s : SilenceNotifierState,
      countStart Channel.email (processEntered cfgs s).2 =
        if s.emailSent then 0 else if cfgs.any (·.hasGraph) then 1 else 0 := by
  induction cfgs with
  | nil => intro s; simp [processEntered, countStart]
  | cons cfg cfgs ih =>
    rintro ⟨ws, es, ls, g⟩
    simp only [processEntered, countStart_append, ih]
    cases es <;> cases hg : cfg.hasGraph <;>
      simp [handleSilenceStart, trySend, countStart, hg, List.count_cons] <;>
      split_ifs <;> simp_all

lemma countStart_log_processEntered (cfgs : List Snapshot) :
    ∀ s : SilenceNotifierState,
      countStart Channel.log (processEntered cfgs s).2 =
        if s.logSent then 0 else if cfgs.any (·.hasLogPath) then 1 else 0 := by
  induction cfgs with
  | nil => intro s; simp [processEntered, countStart]
  | cons cfg cfgs ih =>
    rintro ⟨ws, es, ls, g⟩
    simp only [processEntered, countStart_append, ih]
    cases ls <;> cases hp : cfg.hasLogPath <;>
      simp [handleSilenceStart, trySend, countStart, hp, List.count_cons] <;>
      split_ifs <;> simp_all

/-- C1: from a fresh-episode state (all sent flags clear), any sequence
of `enteredSilence=true` events dispatches exactly one start
notification per channel whose enabling condition holds at some event of
the sequence, and none for a channel never enabled; in particular,
duplicate entered events while a flag is set dispatch nothing further
for that channel. -/
theorem dedup_one_start_per_channel (g : Option Nat) (cfgs : List Snapshot) :
    countStart Channel.webhook
        (processEntered cfgs ⟨false, false, false, g⟩).2 =
      (if cfgs.any (·.hasWebhook) then 1 else 0) ∧
    countStart Channel.email
        (processEntered cfgs ⟨false, false, false, g⟩).2 =
      (if cfgs.any (·.hasGraph) then 1 else 0) ∧
    countStart Channel.log
        (processEntered cfgs ⟨false, false, false, g⟩).2 =
      (if cfgs.any (·.hasLogPath) then 1 else 0) := by
  refine ⟨?_, ?_, ?_⟩
  · simpa using countStart_webhook_processEntered cfgs ⟨false, false, false, g⟩
  · simpa using countStart_email_processEntered cfgs ⟨false, false, false, g⟩
  · simpa using countStart_log_processEntered cfgs ⟨false, false, false, g⟩

lemma flags_processEntered (cfgs : List Snapshot) :
    ∀ s : SilenceNotifierState,
      (processEntered cfgs s).1.webhookSent = (s.webhookSent || cfgs.any (·.hasWebhook)) ∧
      (processEntered cfgs s).1.emailSent = (s.emailSent || cfgs.any (·.hasGraph)) ∧
      (processEntered cfgs s).1.logSent = (s.logSent || cfgs.any (·.hasLogPath)) := by
  induction cfgs with
  | nil => intro s; simp [processEntered]
  | cons cfg cfgs ih =>
    rintro ⟨ws, es, ls, g⟩
    simp only [processEntered]
    refine ⟨?_, ?_, ?_⟩ <;>
      simp [(ih _).1, (ih _).2.1, (ih _).2.2, handleSilenceStart, trySend] <;>
      cases ws <;> cases es <;> cases ls <;>
      cases hw : cfg.hasWebhook <;> cases hg : cfg.hasGraph <;> cases hp : cfg.hasLogPath <;>
      simp_all [Bool.or_assoc]

lemma mem_start_processEntered (c : Channel) (g : Option Nat) (cfgs : List Snapshot) :
    (Notification.start c ∈ (processEntered cfgs ⟨false, false, false, g⟩).2) ↔
      0 < countStart c (processEntered cfgs ⟨false, false, false, g⟩).2 := by
  simp [countStart, List.count_pos_iff]

/-- C2: within one episode (flags clear at silence start), the
`exitedSilence` handler dispatches a recovery notification for a
channel iff that channel's start notification was dispatched in the
same episode, and it clears all three flags for the next episode. -/
theorem pairing_recovery_iff_start (g : Option Nat) (cfgs : List Snapshot) :
    (Notification.recovery Channel.webhook ∈
        (handleSilenceEnd (processEntered cfgs ⟨false, false, false, g⟩).1).2 ↔
      Notification.start Channel.webhook ∈
        (processEntered cfgs ⟨false, false, false, g⟩).2) ∧
    (Notification.recovery Channel.email ∈
        (handleSilenceEnd (processEntered cfgs ⟨false, false, false, g⟩).1).2 ↔
      Notification.start Channel.email ∈
        (processEntered cfgs ⟨false, false, false, g⟩).2) ∧
    (Notification.recovery Channel.log ∈
        (handleSilenceEnd (processEntered cfgs ⟨false, false, false, g⟩).1).2 ↔
      Notification.start Channel.log ∈
        (processEntered cfgs ⟨false, false, false, g⟩).2) ∧
    (handleSilenceEnd (processEntered cfgs ⟨false, false, false, g⟩).1).1.webhookSent = false ∧
    (handleSilenceEnd (processEntered cfgs ⟨false, false, false, g⟩).1).1.emailSent = false ∧
    (handleSilenceEnd (processEntered cfgs ⟨false, false, false, g⟩).1).1.logSent = false := by
  obtain ⟨hw, he, hl⟩ := flags_processEntered cfgs ⟨false, false, false, g⟩
  have cw := countStart_webhook_processEntered cfgs ⟨false, false, false, g⟩
  have ce := countStart_email_processEntered cfgs ⟨false, false, false, g⟩
  have cl := countStart_log_processEntered cfgs ⟨false, false, false, g⟩
  simp only [Bool.false_or] at hw he hl
  refine ⟨?_, ?_, ?_, ?_, ?_, ?_⟩
  · rw [mem_start_processEntered, cw]
    simp only [handleSilenceEnd, hw, he, hl]
    cases hA : cfgs.any (·.hasWebhook) <;> cases cfgs.any (·.hasGraph) <;>
      cases cfgs.any (·.hasLogPath) <;> simp_all
  · rw [mem_start_processEntered, ce]
    simp only [handleSilenceEnd, hw, he, hl]
    cases cfgs.any (·.hasWebhook) <;> cases hA : cfgs.any (·.hasGraph) <;>
      cases cfgs.any (·.hasLogPath) <;> simp_all
  · rw [mem_start_processEntered, cl]
    simp only [handleSilenceEnd, hw, he, hl]
    cases cfgs.any (·.hasWebhook) <;> cases cfgs.any (·.hasGraph) <;>
      cases hA : cfgs.any (·.hasLogPath) <;> simp_all
  · simp [handleSilenceEnd]
  · simp [handleSilenceEnd]
  · simp [handleSilenceEnd]

/-- C10: `Reset` clears exactly the three sent flags and leaves the
cached Graph client unchanged; `InvalidateGraphClient` clears exactly
the cached client and leaves the three flags unchanged; the two
operations touch disjoint fields and therefore commute. -/
theorem reset_invalidate_frame (s : SilenceNotifierState) :
    (Reset s).webhookSent = false ∧ (Reset s).emailSent = false ∧
    (Reset s).logSent = false ∧ (Reset s).graphClient = s.graphClient ∧
    (InvalidateGraphClient s).graphClient = none ∧
    (InvalidateGraphClient s).webhookSent = s.webhookSent ∧
    (InvalidateGraphClient s).emailSent = s.emailSent ∧
    (InvalidateGraphClient s).logSent = s.logSent ∧
    Reset (InvalidateGraphClient s) = InvalidateGraphClient (Reset s) := by
  simp [Reset, InvalidateGraphClient]

lemma classify_transient (r : AttemptResult) (h : IsTransientResult r) :
    classify r = .transient (toTransient r) := by
  cases r with
  | netErr m => rfl
  | status c b =>
    rcases h with h | h <;> subst h <;> rfl

/-- C4: if every attempt observes a transient result (transport error
or HTTP 429/503), `sendWithRetry` makes exactly 4 attempts (1 initial
+ `maxRetries = 3` retries), sleeps 1s, 2s, 4s before the retries
(starting at 1s, doubling, below the 30s cap), and ends exhausted
carrying the last observed transient error (that of attempt 3). -/
theorem retry_exhaustion (oracle : Nat → AttemptResult)
    (h : ∀ i, i ≤ maxRetries → IsTransientResult (oracle i)) :
    sendWithRetry oracle =
      { outcome := .exhausted (some (toTransient (oracle 3))),
        attempts := 4, sleeps := [1, 2, 4] } := by
  have c0 := classify_transient _ (h 0 (by norm_num [maxRetries]))
  have c1 := classify_transient _ (h 1 (by norm_num [maxRetries]))
  have c2 := classify_transient _ (h 2 (by norm_num [maxRetries]))
  have c3 := classify_transient _ (h 3 (by norm_num [maxRetries]))
  simp [sendWithRetry, sendLoop, c0, c1, c2, c3, nextRetryWait,
    maxRetries, initialRetryWait, maxRetryWait]

/-- Witness for `retry_exhaustion`: an endpoint answering 503 forever. -/
theorem retry_exhaustion_witness :
    sendWithRetry (fun _ => .status 503 "busy") =
      { outcome := .exhausted (some (.apiStatus 503 "busy")),
        attempts := 4, sleeps := [1, 2, 4] } :=
  retry_exhaustion (fun _ => .status 503 "busy") (fun _ _ => Or.inr rfl)

/-- C5: per-attempt response handling: 200/202/204 classify as success
and make the loop exit successfully after this attempt; 429/503 are
transient; any other status is a terminal failure carrying the status
code and response body, returned after this attempt with no retry; a
transport error is transient; and a transient classification makes the
loop recurse into the next attempt (a retry) recording the error. -/
theorem response_classification (oracle : Nat → AttemptResult)
    (attempt fuel w : Nat) (le : Option TransientErr) (sl : List Nat)
    (c : Nat) (b m : String) :
    ((c = 200 ∨ c = 202 ∨ c = 204) → classify (.status c b) = .success) ∧
    ((c = 429 ∨ c = 503) → classify (.status c b) = .transient (.apiStatus c b)) ∧
    (c ≠ 200 → c ≠ 202 → c ≠ 204 → c ≠ 429 → c ≠ 503 →
      classify (.status c b) = .terminal c b) ∧
    classify (.netErr m) = .transient (.sendRequest m) ∧
    (classify (oracle attempt) = .success →
      (sendLoop oracle attempt (fuel + 1) w le sl).outcome = .success ∧
      (sendLoop oracle attempt (fuel + 1) w le sl).attempts = attempt + 1) ∧
    (∀ cc bb, classify (oracle attempt) = .terminal cc bb →
      (sendLoop oracle attempt (fuel + 1) w le sl).outcome = .terminal cc bb ∧
      (sendLoop oracle attempt (fuel + 1) w le sl).attempts = attempt + 1) ∧
    (∀ e, classify (oracle attempt) = .transient e →
      sendLoop oracle attempt (fuel + 1) w le sl =
        sendLoop oracle (attempt + 1) fuel
          (if attempt > 0 then nextRetryWait w else w) (some e)
          (if attempt > 0 then sl ++ [w] else sl)) := by
  refine ⟨?_, ?_, ?_, rfl, ?_, ?_, ?_⟩
  · rintro (h | h | h) <;> subst h <;> rfl
  · rintro (h | h) <;> subst h <;> rfl
  · intro h200 h202 h204 h429 h503
    simp only [classify]
    rw [if_neg (by tauto), if_neg (by tauto)]
  · intro hcl
    simp [sendLoop, hcl]
  · intro cc bb hcl
    simp [sendLoop, hcl]
  · intro e hcl
    simp [sendLoop, hcl]

/-- Witness for `response_classification` at concrete inputs. -/
theorem response_classification_witness :
    classify (.status 200 "") = .success ∧
    classify (.status 429 "r") = .transient (.apiStatus 429 "r") ∧
    classify (.status 418 "t") = .terminal 418 "t" ∧
    classify (.netErr "down") = .transient (.sendRequest "down") ∧
    (sendLoop (fun _ => .status 418 "t") 0 (3 + 1) 1 none []).outcome =
      .terminal 418 "t" := by
  have h := response_classification (fun _ => .status 418 "t") 0 3 1 none [] 200 "" "down"
  have h429 := response_classification (fun _ => .status 418 "t") 0 3 1 none [] 429 "r" "down"
  have h418 := response_classification (fun _ => .status 418 "t") 0 3 1 none [] 418 "t" "down"
  refine ⟨h.1 (Or.inl rfl), h429.2.1 (Or.inl rfl),
    h418.2.2.1 (by decide) (by decide) (by decide) (by decide) (by decide),
    h.2.2.2.1,
    (h418.2.2.2.2.2.1 418 "t"
      (h418.2.2.1 (by decide) (by decide) (by decide) (by decide) (by decide))).1⟩

/-- C9 counterexample: a configuration whose recipients string is a
bare comma is "configured" and passes `ValidateConfig` (no error),
yet parses to zero addresses — so validity does not additionally
require at least one parseable address. -/
theorem validate_no_address_counterexample :
    IsConfigured ⟨"t", "c", "s", "f", ","⟩ = true ∧
    ValidateConfig ⟨"t", "c", "s", "f", ","⟩ = none ∧
    ParseRecipients "," = [] := by
  refine ⟨rfl, rfl, ?_⟩
  decide

/-- C9 (amended): `IsConfigured` is true iff all five fields are
non-empty, and `ValidateConfig` returns no error iff `IsConfigured`;
`ValidateConfig` does not inspect the parsed recipient list (the
at-least-one-address check happens at send time). -/
theorem configured_iff_fields (cfg : GraphConfig) :
    (IsConfigured cfg = true ↔
      (cfg.tenantID ≠ "" ∧ cfg.clientID ≠ "" ∧ cfg.clientSecret ≠ "" ∧
        cfg.fromAddress ≠ "" ∧ cfg.recipients ≠ "")) ∧
    (ValidateConfig cfg = none ↔ IsConfigured cfg = true) := by
  obtain ⟨t, ci, cs, f, r⟩ := cfg
  constructor
  · simp [IsConfigured]
    tauto
  · simp only [ValidateConfig, IsConfigured]
    split_ifs <;> simp_all

lemma tdiv_negSucc_nonpos (m n : Nat) :
    Int.tdiv (Int.negSucc m) (Int.ofNat n) ≤ 0 := by
  simp [Int.tdiv]
  exact Int.ediv_nonneg (by positivity) (by positivity)

lemma computeDaysLeft_eq_clamped_floor (untilNs : Int) :
    computeDaysLeft untilNs = max 0 (Int.fdiv untilNs nsPerDay) := by
  have hd : (0 : Int) < nsPerDay := by norm_num [nsPerDay]
  rcases le_or_lt 0 untilNs with hpos | hneg
  · have ht : Int.tdiv untilNs nsPerDay = untilNs / nsPerDay :=
      Int.tdiv_eq_ediv hpos (le_of_lt hd)
    have hf : Int.fdiv untilNs nsPerDay = untilNs / nsPerDay :=
      Int.fdiv_eq_ediv _ (le_of_lt hd)
    have hge : 0 ≤ untilNs / nsPerDay := Int.ediv_nonneg hpos (le_of_lt hd)
    simp only [computeDaysLeft, ht, hf]
    rw [if_neg (by omega)]
    omega
  · have ht : Int.tdiv untilNs nsPerDay ≤ 0 := by
      obtain ⟨m, rfl⟩ : ∃ m, untilNs = Int.negSucc m := by
        cases untilNs with
        | ofNat k => exact absurd hneg (not_lt.mpr (Int.ofNat_nonneg k))
        | negSucc m => exact ⟨m, rfl⟩
      have : nsPerDay = Int.ofNat 86400000000000 := by norm_num [nsPerDay]
      rw [this]
      exact tdiv_negSucc_nonpos _ _
    have hf : Int.fdiv untilNs nsPerDay < 0 := by
      rw [Int.fdiv_eq_ediv _ (le_of_lt hd)]
      exact Int.ediv_neg' hneg hd
    simp only [computeDaysLeft]
    split_ifs <;> omega

/-- C6: the computed `daysLeft` equals the floor of hours-until-expiry
over 24 (i.e. floor division of the nanosecond gap by one day),
clamped to a minimum of 0; whenever the check succeeds, `expiresSoon`
is true iff `daysLeft ≤ 30`; expiry in exactly 15 days gives
`daysLeft = 15` and `expiresSoon = true`, in 45 days gives
`expiresSoon = false`, and an already-expired credential gives
`daysLeft = 0`. -/
theorem expiry_days_math :
    (∀ untilNs : Int,
      computeDaysLeft untilNs = max 0 (Int.fdiv untilNs nsPerDay)) ∧
    (∀ (nowNs : Int) (creds : List (Option Int)),
      (fetchExpiryInfoResult nowNs creds).error = none →
        ((fetchExpiryInfoResult nowNs creds).expiresSoon = true ↔
          (fetchExpiryInfoResult nowNs creds).daysLeft ≤ 30)) ∧
    (fetchExpiryInfoResult nsPerDay [some (16 * nsPerDay)]).daysLeft = 15 ∧
    (fetchExpiryInfoResult nsPerDay [some (16 * nsPerDay)]).expiresSoon = true ∧
    (fetchExpiryInfoResult nsPerDay [some (46 * nsPerDay)]).daysLeft = 45 ∧
    (fetchExpiryInfoResult nsPerDay [some (46 * nsPerDay)]).expiresSoon = false ∧
    (fetchExpiryInfoResult (50 * nsPerDay) [some (46 * nsPerDay)]).daysLeft = 0 := by
  refine ⟨computeDaysLeft_eq_clamped_floor, ?_, by decide, by decide, by decide, by decide, by decide⟩
  intro nowNs creds herr
  simp only [fetchExpiryInfoResult] at herr ⊢
  split_ifs at herr ⊢ with h
  simp_all [expiryWarningDays]

/-- Witness for `expiry_days_math` (its second conjunct carries an
`error = none` hypothesis): a successful check at a concrete input. -/
theorem expiry_days_math_witness :
    (fetchExpiryInfoResult nsPerDay [some (16 * nsPerDay)]).error = none ∧
    ((fetchExpiryInfoResult nsPerDay [some (16 * nsPerDay)]).expiresSoon = true ↔
      (fetchExpiryInfoResult nsPerDay [some (16 * nsPerDay)]).daysLeft ≤ 30) :=
  ⟨by decide, expiry_days_math.2.1 nsPerDay [some (16 * nsPerDay)] (by decide)⟩

lemma minOfParsed_eq_none_iff (creds : List (Option Int)) :
    minOfParsed creds = none ↔ parsedDates creds = [] := by
  induction creds with
  | nil => simp [minOfParsed, parsedDates]
  | cons c cs ih =>
    cases c with
    | none => simpa [minOfParsed, parsedDates] using ih
    | some t =>
      simp only [minOfParsed, parsedDates]
      cases minOfParsed cs <;> simp

lemma minOfParsed_is_min (creds : List (Option Int)) :
    ∀ m, minOfParsed creds = some m →
      m ∈ parsedDates creds ∧ ∀ t ∈ parsedDates creds, m ≤ t := by
  induction creds with
  | nil => simp [minOfParsed]
  | cons c cs ih =>
    intro m hm
    cases c with
    | none =>
      simp only [minOfParsed] at hm
      obtain ⟨h1, h2⟩ := ih m hm
      exact ⟨by simpa [parsedDates] using h1, by simpa [parsedDates] using h2⟩
    | some t =>
      simp only [minOfParsed] at hm
      rcases hmin : minOfParsed cs with _ | m'
      · rw [hmin] at hm
        simp only [Option.some.injEq] at hm
        subst hm
        have hempty : parsedDates cs = [] := (minOfParsed_eq_none_iff cs).mp hmin
        refine ⟨by simp [parsedDates], ?_⟩
        intro u hu
        simp only [parsedDates, hempty, List.mem_cons, List.not_mem_nil, or_false] at hu
        omega
      · rw [hmin] at hm
        simp only [Option.some.injEq] at hm
        subst hm
        obtain ⟨h1, h2⟩ := ih m' hmin
        constructor
        · rcases le_total t m' with h | h
          · simp [parsedDates, min_eq_left h]
          · simp only [parsedDates, List.mem_cons]
            right
            rw [min_eq_right h]
            exact h1
        · intro u hu
          simp only [parsedDates, List.mem_cons] at hu
          rcases hu with hu | hu
          · subst hu
            exact min_le_left _ _
          · exact le_trans (min_le_right _ _) (h2 u hu)

lemma foldl_earliestStep_nonzero (creds : List (Option Int)) :
    ∀ a : Int, a ≠ 0 → (∀ t ∈ parsedDates creds, t ≠ 0) →
      creds.foldl earliestStep a =
        (match minOfParsed creds with
          | none => a
          | some m => min a m) := by
  induction creds with
  | nil => intro a _ _; simp [minOfParsed]
  | cons c cs ih =>
    intro a ha hnz
    cases c with
    | none =>
      have := ih a ha (fun t ht => hnz t (by simpa [parsedDates] using ht))
      simpa [earliestStep, minOfParsed] using this
    | some t =>
      have ht0 : t ≠ 0 := hnz t (by simp [parsedDates])
      have hrest : ∀ u ∈ parsedDates cs, u ≠ 0 := by
        intro u hu
        exact hnz u (by simp [parsedDates, hu])
      simp only [List.foldl_cons, earliestStep, minOfParsed]
      rcases lt_or_le t a with hlt | hle
      · rw [if_pos (Or.inr hlt), ih t ht0 hrest]
        rcases hmin : minOfParsed cs with _ | m' <;>
          simp only [min_def] <;> split_ifs <;> omega
      · rw [if_neg (by push_neg; exact ⟨ha, hle⟩), ih a ha hrest]
        rcases hmin : minOfParsed cs with _ | m' <;>
          simp only [min_def] <;> split_ifs <;> omega

lemma findEarliest_eq_min (creds : List (Option Int))
    (hnz : ∀ t ∈ parsedDates creds, t ≠ 0) :
    findEarliest creds =
      (match minOfParsed creds with
        | none => 0
        | some m => m) := by
  induction creds with
  | nil => simp [findEarliest, minOfParsed]
  | cons c cs ih =>
    cases c with
    | none =>
      have := ih (fun t ht => hnz t (by simpa [parsedDates] using ht))
      simpa [findEarliest, earliestStep, minOfParsed] using this
    | some t =>
      have ht0 : t ≠ 0 := hnz t (by simp [parsedDates])
      have hrest : ∀ u ∈ parsedDates cs, u ≠ 0 := by
        intro u hu
        exact hnz u (by simp [parsedDates, hu])
      simp only [findEarliest, List.foldl_cons, earliestStep, true_or, if_true]
      rw [foldl_earliestStep_nonzero cs t ht0 hrest]
      simp only [minOfParsed]
      rcases hmin : minOfParsed cs with _ | m' <;> simp only [min_def]

/-- C7 counterexample: a credential whose end date parses to exactly
the zero `time.Time` (the RFC3339 string 0001-01-01T00:00:00Z) defeats
the `earliest.IsZero()` sentinel, in both orders.  With records
parsing to `0` and then to `100 * nsPerDay`, the scan keeps the later
one, not the earliest; with the zero-dated record alone — a parseable
end date — the check reports "no password credentials found"; and with
records parsing to `100 * nsPerDay` and then to `0`, the zero-dated
record resets the running minimum, so the check reports "no password
credentials found" even though a non-zero parseable end date is
present — hence no selection claim over lists containing a zero-dated
record can hold, in whichever way such records are counted. -/
theorem earliest_scan_counterexample :
    (fetchExpiryInfoResult 0 [some 0, some (100 * nsPerDay)]).expiresAt =
        some (100 * nsPerDay) ∧
    (0 : Int) ∈ parsedDates [some 0, some (100 * nsPerDay)] ∧
    (0 : Int) < 100 * nsPerDay ∧
    parsedDates [some 0] ≠ [] ∧
    (fetchExpiryInfoResult 0 [some 0]).error =
      some "no password credentials found" ∧
    (100 * nsPerDay : Int) ∈ parsedDates [some (100 * nsPerDay), some 0] ∧
    (100 * nsPerDay : Int) ≠ 0 ∧
    (fetchExpiryInfoResult 0 [some (100 * nsPerDay), some 0]).error =
      some "no password credentials found" := by
  refine ⟨by decide, by decide, by decide, by decide, ?_, by decide, by decide, ?_⟩ <;> rfl

/-- C7 (amended): for every list of password-credential records none
of whose end dates parses to exactly the zero `time.Time`
(0001-01-01T00:00:00Z — the value that defeats the scan's `IsZero`
sentinel, as the counterexample shows for lists that do contain it):
the check selects the earliest (soonest) parseable end date among all
records — not the latest — as the operative expiry, and when no record
carries a parseable end date it caches the explicit "no password
credentials found" condition instead of a success value. -/
theorem earliest_credential_selected (nowNs : Int) (creds : List (Option Int))
    (hnz : ∀ t ∈ parsedDates creds, t ≠ 0) :
    (parsedDates creds = [] →
      (fetchExpiryInfoResult nowNs creds).error =
        some "no password credentials found") ∧
    (parsedDates creds ≠ [] → ∃ m, minOfParsed creds = some m) ∧
    (∀ m, minOfParsed creds = some m →
      (fetchExpiryInfoResult nowNs creds).expiresAt = some m ∧
      m ∈ parsedDates creds ∧ (∀ t ∈ parsedDates creds, m ≤ t) ∧
      (fetchExpiryInfoResult nowNs creds).error = none) := by
  have hfe := findEarliest_eq_min creds hnz
  refine ⟨?_, ?_, ?_⟩
  · intro hempty
    have hnone : minOfParsed creds = none := (minOfParsed_eq_none_iff creds).mpr hempty
    rw [hnone] at hfe
    simp only [fetchExpiryInfoResult, hfe]
    rfl
  · intro hne
    rcases hmo : minOfParsed creds with _ | m
    · exact absurd ((minOfParsed_eq_none_iff creds).mp hmo) hne
    · exact ⟨m, rfl⟩
  · intro m hm
    obtain ⟨hmem, hmin⟩ := minOfParsed_is_min creds m hm
    have hm0 : m ≠ 0 := hnz m hmem
    rw [hm] at hfe
    simp only [fetchExpiryInfoResult, hfe]
    rw [if_neg hm0]
    exact ⟨rfl, hmem, hmin, rfl⟩

/-- Witness for `earliest_credential_selected`: records parsing to day
5, an unparseable record, and day 3 select day 3 with no error. -/
theorem earliest_credential_selected_witness :
    (fetchExpiryInfoResult 0 [some (5 * nsPerDay), none, some (3 * nsPerDay)]).expiresAt =
        some (3 * nsPerDay) ∧
    (fetchExpiryInfoResult 0 [some (5 * nsPerDay), none, some (3 * nsPerDay)]).error =
        none := by
  have h := (earliest_credential_selected 0
      [some (5 * nsPerDay), none, some (3 * nsPerDay)]
      (by intro t ht; simp [parsedDates] at ht; rcases ht with h | h <;> simp [h, nsPerDay])).2.2
      (3 * nsPerDay) (by decide)
  exact ⟨h.1, h.2.2.2⟩

/-- C8: the monitor's lifecycle is Stopped → `Start()` → Running →
`Stop()` → Stopped; `Start` on a Running instance and `Stop` on a
Stopped instance are no-ops (idempotent transitions), and after any
`Stop` a subsequent `Start` performs an immediate check again and
resumes periodic background checking (channels are recreated, so
restart works). -/
theorem lifecycle_idempotent_restart (s : CheckerLifecycle) :
    checkerStart (checkerStart s) = checkerStart s ∧
    checkerStop (checkerStop s) = checkerStop s ∧
    (checkerStart s).running = true ∧
    (checkerStop s).running = false ∧
    (checkerStart NewSecretExpiryChecker).running = true ∧
    (checkerStart (checkerStop s)).running = true ∧
    (checkerStart (checkerStop s)).bgActive = true ∧
    (checkerStart (checkerStop s)).stopChClosed = false ∧
    (checkerStart (checkerStop s)).checksRun = (checkerStop s).checksRun + 1 := by
  obtain ⟨r, c, b, n⟩ := s
  cases r <;> simp [checkerStart, checkerStop, NewSecretExpiryChecker]

/-- C3 fails on the code: in the interleaving where `Stop()` runs to
completion between the invocation of `check()` and the moment `check()`
sets the `checking` flag, `Stop()` observes `checking = false`, returns
without waiting, and the in-flight check then writes the cached expiry
info and last-check timestamp after `Stop()` has returned — a
write-after-stop, contradicting `Stop`'s own documented guarantee. -/
theorem stop_write_after_return_race :
    (raceRun [false, false, false, false, false] raceInit).stopReturned = true ∧
    (raceRun [false, false, false, false, false] raceInit).cacheWrites = 0 ∧
    (raceRun [false, false, false, false, false, true, true, true, true, true, true]
        raceInit).writeAfterStopReturn = true ∧
    (raceRun [false, false, false, false, false, true, true, true, true, true, true]
        raceInit).cacheWrites = 1 := by
  decide
